import Mathlib

set_option maxHeartbeats 1000000

/-!
Shallow embedding of the snake game's state machine (src/snake.py) and proofs of
its stated properties.  Cells are pairs of integers (Python tuples of ints); the
simulation step, the event handling and the frame loop of `main` are translated
into pure functions; the rejection-sampling food placement, an unbounded loop in
the source, is embedded with an explicit retry budget (`fuel`), returning `none`
when the loop has not returned within the budget.
-/

/-- Window width in pixels (snake.py line 9). -/
def WINDOW_WIDTH : Nat := 600

/-- Window height in pixels (snake.py line 10). -/
def WINDOW_HEIGHT : Nat := 400

/-- Cell size in pixels (snake.py line 11). -/
def CELL_SIZE : Nat := 20

/-- Configured initial snake length (snake.py line 12). -/
def START_LENGTH : Nat := 5

/-- Grid width in cells (snake.py line 35): 600 / 20 = 30. -/
def GRID_WIDTH : Nat := WINDOW_WIDTH / CELL_SIZE

/-- Grid height in cells (snake.py line 36): 400 / 20 = 20. -/
def GRID_HEIGHT : Nat := WINDOW_HEIGHT / CELL_SIZE

/-- A grid cell, a pair of (possibly negative) integers as in the Python source. -/
abbrev Cell : Type := Int × Int

/-- The four movement directions (arrow keys). -/
inductive Dir : Type
  | up
  | down
  | left
  | right
deriving DecidableEq, Repr

/-- Direction vector, as in key_to_dir (snake.py lines 505-510). -/
def dirVec : Dir → Cell
  | Dir.up => (0, -1)
  | Dir.down => (0, 1)
  | Dir.left => (-1, 0)
  | Dir.right => (1, 0)

/-- opposite = (-direction[0], -direction[1]) (snake.py line 521). -/
def Dir.opposite : Dir → Dir
  | Dir.up => Dir.down
  | Dir.down => Dir.up
  | Dir.left => Dir.right
  | Dir.right => Dir.left

/-- In-bounds test for a cell: 0 <= x < GRID_WIDTH and 0 <= y < GRID_HEIGHT
(snake.py line 517 and lines 604-609). -/
def inGrid (c : Cell) : Prop :=
  0 ≤ c.1 ∧ c.1 < (GRID_WIDTH : Int) ∧ 0 ≤ c.2 ∧ c.2 < (GRID_HEIGHT : Int)

instance (c : Cell) : Decidable (inGrid c) :=
  inferInstanceAs (Decidable (0 ≤ c.1 ∧ c.1 < (GRID_WIDTH : Int) ∧ 0 ≤ c.2 ∧ c.2 < (GRID_HEIGHT : Int)))

/-- create_initial_snake (snake.py lines 39-50); the raised ValueError is `none`.
The returned list is head first: cell `i` is `(head_x - i, head_y)`. -/
def create_initial_snake (length : Int) : Option (List Cell) :=
  if length < 1 ∨ (GRID_WIDTH : Int) < length then none
  else
    some ((List.range length.toNat).map
      (fun i =>
        (((GRID_WIDTH : Int) - length) / 2 + length - 1 - Int.ofNat i,
         (GRID_HEIGHT : Int) / 2)))

/-- One unit step from the head of the given snake: head + direction vector
(snake.py lines 515-516 and 598-600). -/
def stepTarget (snake : List Cell) (d : Dir) : Cell :=
  ((snake.headD (0, 0)).1 + (dirVec d).1, (snake.headD (0, 0)).2 + (dirVec d).2)

/-- Wall test for a candidate head (snake.py lines 604-609). -/
def hitWallP (c : Cell) : Prop :=
  c.1 < 0 ∨ (GRID_WIDTH : Int) ≤ c.1 ∨ c.2 < 0 ∨ (GRID_HEIGHT : Int) ≤ c.2

instance (c : Cell) : Decidable (hitWallP c) :=
  inferInstanceAs (Decidable
    (c.1 < 0 ∨ (GRID_WIDTH : Int) ≤ c.1 ∨ c.2 < 0 ∨ (GRID_HEIGHT : Int) ≤ c.2))

/-- random_food_position (snake.py lines 144-149), an unbounded rejection-sampling
loop, embedded with an explicit retry budget: `draws` is the stream of randint
pairs (reduced into the grid ranges, as random.randint(0, n-1) always lands in
[0, n-1]), `k` is the index of the next draw, and the result is `none` when the
loop has not returned after `fuel` iterations. -/
def random_food_position_k (draws : Nat → Nat × Nat) (snake : List Cell) :
    Nat → Nat → Option Cell
  | _, 0 => none
  | k, fuel + 1 =>
    let pos : Cell := (((draws k).1 % GRID_WIDTH : Nat), (((draws k).2 % GRID_HEIGHT : Nat)))
    if pos ∈ snake then random_food_position_k draws snake (k + 1) fuel
    else some pos

/-- game_over_reason values: "none", "wall", "self" (snake.py lines 461 and 618). -/
inductive Reason : Type
  | none
  | wall
  | self
deriving DecidableEq, Repr

/-- One food-pop effect entry (snake.py lines 633-635). -/
structure PopEffect : Type where
  pos : Cell
  durationMs : Nat
  remainingMs : Nat
deriving DecidableEq, Repr

/-- The round data mutated by the simulation step (snake.py lines 597-639):
snake, food, score, the session bests, and the step-created effect timers. -/
structure RoundCore : Type where
  snake : List Cell
  food : Cell
  score : Nat
  bestScore : Nat
  bestSize : Nat
  sizeAnimMs : Nat
  foodPops : List PopEffect
  gameOverReason : Reason
deriving DecidableEq, Repr

/-- Outcome of one simulation step: the round ended, or it continues. -/
inductive StepOut : Type
  | over (c : RoundCore)
  | cont (c : RoundCore)
deriving DecidableEq, Repr

/-- new_head = (head_x + dx, head_y + dy) (snake.py lines 598-600). -/
def newHead (c : RoundCore) (d : Dir) : Cell := stepTarget c.snake d

/-- One simulation step (snake.py lines 597-639).  The collision check comes
before any mutation; `body_to_check` is the full snake when growing and the
snake without its tail cell otherwise; on collision the reason is "wall" when
hit_wall holds, else "self", and nothing else is mutated.  Otherwise the new
head is prepended; on growth the score increments, the food is re-drawn
(`none` when the retry budget runs out), the pulse and pop timers are created
and the session bests are raised; otherwise the tail is popped. -/
def stepGame (draws : Nat → Nat × Nat) (fuel : Nat) (d : Dir) (c : RoundCore) :
    Option StepOut :=
  if hitWallP (newHead c d) ∨
      newHead c d ∈ (if newHead c d = c.food then c.snake else c.snake.dropLast) then
    some (StepOut.over
      { c with gameOverReason := if hitWallP (newHead c d) then Reason.wall else Reason.self })
  else if newHead c d = c.food then
    match random_food_position_k draws (newHead c d :: c.snake) 0 fuel with
    | none => none
    | some f =>
      some (StepOut.cont
        { c with
          snake := newHead c d :: c.snake
          score := c.score + 1
          food := f
          sizeAnimMs := 400
          foodPops := c.foodPops ++ [⟨c.food, 250, 250⟩]
          bestScore := max c.bestScore (c.score + 1)
          bestSize := max c.bestSize (newHead c d :: c.snake).length })
  else
    some (StepOut.cont { c with snake := (newHead c d :: c.snake).dropLast })

/-- Full per-frame state of a round (snake.py lines 455-470), the simulation
core plus direction buffering, pause and overlay flags, level and toast timer. -/
structure GState : Type where
  core : RoundCore
  direction : Option Dir
  nextDirection : Option Dir
  paused : Bool
  level : Nat
  showHelp : Bool
  showDebug : Bool
  levelToastMs : Nat
deriving DecidableEq, Repr

/-- Input events of one frame (snake.py lines 481-523).  `quit` covers both the
window-close event and Escape; `levelKey n` is the key 1/2/3 selecting level
n+1. -/
inductive Ev : Type
  | quit
  | restartKey
  | levelKey (n : Fin 3)
  | helpKey
  | debugKey
  | pauseKey
  | dirKey (d : Dir)
deriving DecidableEq, Repr

/-- The arrow-key handler (snake.py lines 504-523): the updated pending (next)
direction, given the snake, the active direction and the previous pending one.
Before the first move a candidate is buffered only if its target cell is in
bounds and not on the body (snake[1:]); afterwards it is buffered unless it is
the exact opposite of the active direction; otherwise the buffer is unchanged. -/
def applyDirKey (snake : List Cell) (direction : Option Dir)
    (next_direction : Option Dir) (candidate : Dir) : Option Dir :=
  match direction with
  | none =>
    if inGrid (stepTarget snake candidate) ∧ stepTarget snake candidate ∉ snake.drop 1 then
      some candidate
    else next_direction
  | some cur =>
    if candidate ≠ cur.opposite then some candidate else next_direction

/-- Handling of one event (snake.py lines 481-523); the Bool is
restart_requested; `none` is process exit (pygame.quit / sys.exit). -/
def handleEvent (sb : GState × Bool) (e : Ev) : Option (GState × Bool) :=
  match e with
  | Ev.quit => none
  | Ev.restartKey => some (sb.1, true)
  | Ev.levelKey n => some ({ sb.1 with level := n.val + 1, levelToastMs := 1000 }, sb.2)
  | Ev.helpKey => some ({ sb.1 with showHelp := !sb.1.showHelp }, sb.2)
  | Ev.debugKey => some ({ sb.1 with showDebug := !sb.1.showDebug }, sb.2)
  | Ev.pauseKey => some ({ sb.1 with paused := !sb.1.paused }, sb.2)
  | Ev.dirKey d =>
    some ({ sb.1 with
      nextDirection := applyDirKey sb.1.core.snake sb.1.direction sb.1.nextDirection d }, sb.2)

/-- The per-frame event loop (snake.py line 481): events in order, short-circuiting
on quit. -/
def handleEvents : List Ev → GState × Bool → Option (GState × Bool)
  | [], sb => some sb
  | e :: es, sb =>
    match handleEvent sb e with
    | none => none
    | some sb2 => handleEvents es sb2

/-- Applying the buffered direction at the start of a non-paused frame
(snake.py lines 557-558). -/
def applyPending (s : GState) : GState :=
  match s.nextDirection with
  | some d2 => { s with direction := some d2 }
  | none => s

/-- Transient-timer countdown of one frame (snake.py lines 589-595):
max(0, x - dt) on the toast and pulse timers and on each pop effect, then
dropping the expired pops. -/
def decTimers (dt : Nat) (s : GState) : GState :=
  { s with
    levelToastMs := s.levelToastMs - dt
    core := { s.core with
      sizeAnimMs := s.core.sizeAnimMs - dt
      foodPops :=
        (s.core.foodPops.map (fun p => { p with remainingMs := p.remainingMs - dt })).filter
          (fun p => decide (0 < p.remainingMs)) } }

/-- Result of one frame of the inner loop: process exit, restart of the round,
round ended by collision, or an ongoing round. -/
inductive TickOut : Type
  | quitGame
  | restartRound (s : GState)
  | gameOver (s : GState)
  | cont (s : GState)
deriving DecidableEq, Repr

/-- The frame after event handling (snake.py lines 525-639): the restart check,
then the paused early-exit (timers and simulation untouched), then application
of the buffered direction, the pre-move idle when no direction was ever chosen,
and finally timers plus one simulation step. -/
def tickAfterEvents (draws : Nat → Nat × Nat) (fuel : Nat) (dt : Nat)
    (sb : GState × Bool) : Option TickOut :=
  if sb.2 = true then some (TickOut.restartRound sb.1)
  else if sb.1.paused = true then some (TickOut.cont sb.1)
  else
    match (applyPending sb.1).direction with
    | none => some (TickOut.cont (applyPending sb.1))
    | some d =>
      match stepGame draws fuel d (decTimers dt (applyPending sb.1)).core with
      | none => none
      | some (StepOut.over c2) =>
        some (TickOut.gameOver { decTimers dt (applyPending sb.1) with core := c2 })
      | some (StepOut.cont c2) =>
        some (TickOut.cont { decTimers dt (applyPending sb.1) with core := c2 })

/-- One iteration of the frame loop (snake.py lines 473-667), given the frame's
events and elapsed milliseconds. -/
def tick (draws : Nat → Nat × Nat) (fuel : Nat) (events : List Ev) (dt : Nat)
    (s : GState) : Option TickOut :=
  match handleEvents events (s, false) with
  | none => some TickOut.quitGame
  | some sb => tickAfterEvents draws fuel dt sb

/-- Fresh-round state (snake.py lines 455-470) with the session bests threaded
through; lines 450-451 initialize them to 0 and START_LENGTH before the first
round and round restarts never reassign them. -/
def mkRound (snake0 : List Cell) (food0 : Cell) (bs bsize : Nat) : GState :=
  { core :=
      { snake := snake0
        food := food0
        score := 0
        bestScore := bs
        bestSize := bsize
        sizeAnimMs := 0
        foodPops := []
        gameOverReason := Reason.none }
    direction := none
    nextDirection := none
    paused := false
    level := 2
    showHelp := false
    showDebug := false
    levelToastMs := 0 }

/-- States reachable by the program: the first round's initial state (for any
draw stream whose rejection sampling returned), states produced by completed
frames, and fresh rounds started from any reachable state (restart key or the
game-over screen), which keep the session bests. -/
inductive Reach : GState → Prop
  | init (draws : Nat → Nat × Nat) (fuel : Nat) (snake0 : List Cell) (food0 : Cell) :
      create_initial_snake (START_LENGTH : Int) = some snake0 →
      random_food_position_k draws snake0 0 fuel = some food0 →
      Reach (mkRound snake0 food0 0 START_LENGTH)
  | tickStep (draws : Nat → Nat × Nat) (fuel : Nat) (events : List Ev) (dt : Nat)
      (s s2 : GState) :
      Reach s →
      (tick draws fuel events dt s = some (TickOut.cont s2) ∨
       tick draws fuel events dt s = some (TickOut.gameOver s2) ∨
       tick draws fuel events dt s = some (TickOut.restartRound s2)) →
      Reach s2
  | newRound (draws : Nat → Nat × Nat) (fuel : Nat) (snake0 : List Cell) (food0 : Cell)
      (s : GState) :
      Reach s →
      create_initial_snake (START_LENGTH : Int) = some snake0 →
      random_food_position_k draws snake0 0 fuel = some food0 →
      Reach (mkRound snake0 food0 s.core.bestScore s.core.bestSize)

/-- Grid adjacency: Manhattan distance 1. -/
def adjacent (a b : Cell) : Prop := (a.1 - b.1).natAbs + (a.2 - b.2).natAbs = 1

/-- The invariants of the round data: a nonempty, duplicate-free snake of
grid-adjacent consecutive cells, all in bounds, with the food in bounds and off
the snake. -/
def CoreInv (c : RoundCore) : Prop :=
  c.snake ≠ [] ∧ c.snake.Nodup ∧ List.Chain' adjacent c.snake ∧
    (∀ x ∈ c.snake, inGrid x) ∧ inGrid c.food ∧ c.food ∉ c.snake

/-- The snake occupying every cell of the 30 x 20 grid. -/
def fullSnake : List Cell :=
  (List.range GRID_WIDTH).flatMap
    (fun x => (List.range GRID_HEIGHT).map (fun y => (Int.ofNat x, Int.ofNat y)))

/-- Iterating the simulation step in a fixed direction while the round
continues. -/
def iterateStep (draws : Nat → Nat × Nat) (fuel : Nat) (d : Dir) :
    Nat → RoundCore → Option StepOut
  | 0, c => some (StepOut.cont c)
  | n + 1, c =>
    match stepGame draws fuel d c with
    | some (StepOut.cont c2) => iterateStep draws fuel d n c2
    | r => r

/-- The round data carried by a step outcome. -/
def StepOut.core : StepOut → RoundCore
  | StepOut.over c => c
  | StepOut.cont c => c

/-- The initial snake the shipped configuration actually produces:
create_initial_snake 5 on the 30 x 20 grid, head (16, 10), tail (12, 10). -/
def initialSnake : List Cell := [(16, 10), (15, 10), (14, 10), (13, 10), (12, 10)]

/-- A concrete first-round state with the food drawn at (0, 0). -/
def initRound : GState := mkRound initialSnake (0, 0) 0 START_LENGTH

/-- A concrete two-cell round used to exercise the tail-follow step. -/
def tailFollowCore : RoundCore :=
  { snake := [(1, 0), (0, 0)], food := (5, 5), score := 0, bestScore := 0,
    bestSize := 5, sizeAnimMs := 0, foodPops := [], gameOverReason := Reason.none }

/-- A concrete round about to eat the food at (2, 0). -/
def growCore : RoundCore :=
  { snake := [(1, 0)], food := (2, 0), score := 0, bestScore := 0,
    bestSize := 5, sizeAnimMs := 0, foodPops := [], gameOverReason := Reason.none }

/-- The round `growCore` becomes after eating, with the food re-drawn at (9, 9). -/
def grownCore : RoundCore :=
  { snake := [(2, 0), (1, 0)], food := (9, 9), score := 1, bestScore := 1,
    bestSize := 5, sizeAnimMs := 400,
    foodPops := [{ pos := (2, 0), durationMs := 250, remainingMs := 250 }],
    gameOverReason := Reason.none }

/-- A concrete round whose head is about to leave the grid moving left. -/
def wallCore : RoundCore :=
  { snake := [(0, 0), (1, 0)], food := (5, 5), score := 0, bestScore := 0,
    bestSize := 5, sizeAnimMs := 0, foodPops := [], gameOverReason := Reason.none }

/-- A concrete round used for the straight-line wall scenario: the shipped
initial snake with the food parked at (0, 0), off the snake's path. -/
def scenarioCore : RoundCore :=
  { snake := initialSnake, food := (0, 0), score := 0, bestScore := 0,
    bestSize := START_LENGTH, sizeAnimMs := 0, foodPops := [],
    gameOverReason := Reason.none }

/-- A concrete mid-round paused state, moving right. -/
def pausedState : GState :=
  { initRound with direction := some Dir.right, paused := true }

instance (a b : Cell) : Decidable (adjacent a b) :=
  inferInstanceAs (Decidable ((a.1 - b.1).natAbs + (a.2 - b.2).natAbs = 1))

/- ================= theorems ================= -/

/-- The grid is 30 cells wide. -/
theorem grid_width_eq : GRID_WIDTH = 30 := rfl

/-- The grid is 20 cells tall. -/
theorem grid_height_eq : GRID_HEIGHT = 20 := rfl

/-- Every randint draw, reduced into range, is an in-bounds cell. -/
theorem draw_inGrid (a b : Nat) :
    inGrid (((a % GRID_WIDTH : Nat) : Int), ((b % GRID_HEIGHT : Nat) : Int)) := by
  have h1 : a % GRID_WIDTH < GRID_WIDTH := Nat.mod_lt _ (by decide)
  have h2 : b % GRID_HEIGHT < GRID_HEIGHT := Nat.mod_lt _ (by decide)
  refine ⟨?_, ?_, ?_, ?_⟩
  · show (0 : Int) ≤ ((a % GRID_WIDTH : Nat) : Int)
    exact_mod_cast Nat.zero_le _
  · show ((a % GRID_WIDTH : Nat) : Int) < (GRID_WIDTH : Int)
    exact_mod_cast h1
  · show (0 : Int) ≤ ((b % GRID_HEIGHT : Nat) : Int)
    exact_mod_cast Nat.zero_le _
  · show ((b % GRID_HEIGHT : Nat) : Int) < (GRID_HEIGHT : Int)
    exact_mod_cast h2

/-- Any cell returned by the food-placement loop is in bounds and off the
snake: the loop only exits when the draw misses every snake cell, and the
draws are reduced into the grid ranges. -/
theorem rfp_sound (draws : Nat → Nat × Nat) (snake : List Cell) :
    ∀ (k fuel : Nat) (pos : Cell),
      random_food_position_k draws snake k fuel = some pos →
      inGrid pos ∧ pos ∉ snake := by
  intro k fuel
  induction fuel generalizing k with
  | zero => intro pos h; exact absurd h (by simp [random_food_position_k])
  | succ n ih =>
    intro pos h
    rw [random_food_position_k] at h
    by_cases hmem :
        ((((draws k).1 % GRID_WIDTH : Nat) : Int), (((draws k).2 % GRID_HEIGHT : Nat) : Int)) ∈ snake
    · rw [if_pos hmem] at h
      exact ih (k + 1) pos h
    · rw [if_neg hmem] at h
      obtain rfl := Option.some.inj h
      exact ⟨draw_inGrid _ _, hmem⟩

/-- Every in-bounds cell belongs to `fullSnake`. -/
theorem mem_fullSnake_of_inGrid (p : Cell) (h : inGrid p) : p ∈ fullSnake := by
  obtain ⟨x, y⟩ := p
  obtain ⟨h1, h2, h3, h4⟩ := h
  dsimp only at h1 h2 h3 h4
  simp only [grid_width_eq] at h2
  simp only [grid_height_eq] at h4
  rw [fullSnake, List.mem_flatMap]
  refine ⟨x.toNat, List.mem_range.mpr ?_, ?_⟩
  · rw [grid_width_eq]
    omega
  · rw [List.mem_map]
    refine ⟨y.toNat, List.mem_range.mpr ?_, ?_⟩
    · rw [grid_height_eq]
      omega
    · show (((x.toNat : Nat) : Int), ((y.toNat : Nat) : Int)) = (x, y)
      rw [Int.toNat_of_nonneg h1, Int.toNat_of_nonneg h3]

/-- On the fully occupied grid the food-placement loop never returns, whatever
the draw stream and however many retries are allowed: every draw hits the
snake, so the exit branch is unreachable. -/
theorem rfp_full_none (draws : Nat → Nat × Nat) :
    ∀ (k fuel : Nat), random_food_position_k draws fullSnake k fuel = none := by
  intro k fuel
  induction fuel generalizing k with
  | zero => rfl
  | succ n ih =>
    rw [random_food_position_k]
    rw [if_pos (mem_fullSnake_of_inGrid _ (draw_inGrid (draws k).1 (draws k).2))]
    exact ih (k + 1)

/-- The cell one unit step from the head is grid-adjacent to the head. -/
theorem adjacent_stepTarget (x : Cell) (t : List Cell) (d : Dir) :
    adjacent (stepTarget (x :: t) d) x := by
  cases d <;> simp [adjacent, stepTarget, dirVec]

/-- Leaving the wall test false means the candidate head is in bounds. -/
theorem not_hitWallP_iff (c : Cell) : ¬ hitWallP c ↔ inGrid c := by
  unfold hitWallP inGrid
  constructor
  · intro h
    push_neg at h
    exact ⟨h.1, h.2.1, h.2.2.1, h.2.2.2⟩
  · intro h hc
    rcases hc with hc | hc | hc | hc <;> omega

/-- The simulation step preserves the round invariants whenever it completes:
on collision nothing is mutated; on a growing move the eaten (former food)
cell becomes the head and the re-drawn food misses the grown snake; on a
plain move the head advances while the tail cell is vacated. -/
theorem stepGame_inv (draws : Nat → Nat × Nat) (fuel : Nat) (d : Dir) (c : RoundCore)
    (out : StepOut) (hinv : CoreInv c) (hstep : stepGame draws fuel d c = some out) :
    CoreInv out.core := by
  obtain ⟨hne, hnd, hch, hg, hfg, hfm⟩ := hinv
  unfold stepGame at hstep
  by_cases hcol : hitWallP (newHead c d) ∨
      newHead c d ∈ (if newHead c d = c.food then c.snake else c.snake.dropLast)
  · rw [if_pos hcol] at hstep
    obtain rfl := Option.some.inj hstep
    exact ⟨hne, hnd, hch, hg, hfg, hfm⟩
  · rw [if_neg hcol] at hstep
    push_neg at hcol
    obtain ⟨hw, hself⟩ := hcol
    have hig : inGrid (newHead c d) := (not_hitWallP_iff _).mp hw
    obtain ⟨x, t, hsn⟩ : ∃ x t, c.snake = x :: t := by
      cases h : c.snake with
      | nil => exact absurd h hne
      | cons a l => exact ⟨a, l, rfl⟩
    have hadj : adjacent (newHead c d) x := by
      show adjacent (stepTarget c.snake d) x
      rw [hsn]
      exact adjacent_stepTarget x t d
    by_cases hgrow : newHead c d = c.food
    · rw [if_pos hgrow] at hstep hself
      cases hrf : random_food_position_k draws (newHead c d :: c.snake) 0 fuel with
      | none =>
        rw [hrf] at hstep
        cases hstep
      | some f =>
        rw [hrf] at hstep
        obtain rfl := Option.some.inj hstep
        have hfs := rfp_sound draws _ 0 fuel f hrf
        unfold StepOut.core CoreInv
        dsimp only
        refine ⟨by simp, List.nodup_cons.mpr ⟨hself, hnd⟩, ?_, ?_, hfs.1, hfs.2⟩
        · rw [List.chain'_cons']
          refine ⟨?_, hch⟩
          intro y hy
          rw [hsn] at hy
          simp only [List.head?_cons, Option.mem_def, Option.some.injEq] at hy
          rw [← hy]
          exact hadj
        · intro z hz
          rcases List.mem_cons.mp hz with rfl | hz2
          · exact hig
          · exact hg z hz2
    · rw [if_neg hgrow] at hstep hself
      obtain rfl := Option.some.inj hstep
      have hdl : (newHead c d :: c.snake).dropLast = newHead c d :: c.snake.dropLast := by
        rw [hsn]
        rfl
      unfold StepOut.core CoreInv
      dsimp only
      rw [hdl]
      refine ⟨by simp, ?_, ?_, ?_, hfg, ?_⟩
      · exact List.nodup_cons.mpr
          ⟨hself, List.Nodup.sublist (List.dropLast_prefix _).sublist hnd⟩
      · rw [List.chain'_cons']
        refine ⟨?_, hch.prefix (List.dropLast_prefix _)⟩
        intro y hy
        rw [hsn] at hy
        cases t with
        | nil => simp at hy
        | cons u t2 =>
          simp only [List.dropLast_cons₂, List.head?_cons, Option.mem_def,
            Option.some.injEq] at hy
          rw [← hy]
          exact hadj
      · intro z hz
        rcases List.mem_cons.mp hz with rfl | hz2
        · exact hig
        · exact hg z ((List.dropLast_prefix _).subset hz2)
      · intro hmem
        rcases List.mem_cons.mp hmem with heq | hmem2
        · exact hgrow heq.symm
        · exact hfm ((List.dropLast_prefix _).subset hmem2)

/-- In a duplicate-free list the last cell does not occur among the others. -/
theorem getLastD_not_mem_dropLast (l : List Cell) (hl : l ≠ [])
    (hnd : l.Nodup) : l.getLastD (0, 0) ∉ l.dropLast := by
  have hsplit := List.dropLast_append_getLast hl
  have hnd2 : (l.dropLast ++ [l.getLast hl]).Nodup := by rw [hsplit]; exact hnd
  rw [List.nodup_append] at hnd2
  have hdisj := hnd2.2.2
  have hlast : l.getLastD (0, 0) = l.getLast hl := by
    rw [List.getLastD_eq_getLast?, List.getLast?_eq_getLast_of_ne_nil hl]
    rfl
  rw [hlast]
  intro hmem
  exact hdisj hmem (by simp)

/-- C2: for a snake of length at least 2 taking a non-growing step (the new
head is not the food cell), moving the head into the cell occupied by the
snake's own tail does not end the round — the self-collision check runs
against the snake without its tail cell when not growing, and against the
full snake when growing (second conjunct: a growing move onto any snake cell,
tail included, ends the round with reason self). -/
theorem c2_tail_follow (draws : Nat → Nat × Nat) (fuel : Nat) (d : Dir) (c : RoundCore) :
    (c.snake.Nodup → 2 ≤ c.snake.length →
      newHead c d = c.snake.getLastD (0, 0) →
      ¬ hitWallP (newHead c d) →
      newHead c d ≠ c.food →
      stepGame draws fuel d c =
        some (StepOut.cont { c with snake := (newHead c d :: c.snake).dropLast })) ∧
    (newHead c d = c.food → newHead c d ∈ c.snake → ¬ hitWallP (newHead c d) →
      stepGame draws fuel d c = some (StepOut.over { c with gameOverReason := Reason.self })) := by
  constructor
  · intro hnd hlen hlast hw hne
    have hne2 : c.snake ≠ [] := by
      intro h0
      rw [h0] at hlen
      simp at hlen
    have hself : newHead c d ∉ c.snake.dropLast := by
      rw [hlast]
      exact getLastD_not_mem_dropLast c.snake hne2 hnd
    have hcol : ¬ (hitWallP (newHead c d) ∨ newHead c d ∈ c.snake.dropLast) := by
      intro h
      rcases h with h | h
      · exact hw h
      · exact hself h
    unfold stepGame
    rw [if_neg hne, if_neg hcol, if_neg hne]
  · intro hgrow hmem hw
    unfold stepGame
    rw [if_pos hgrow, if_pos (Or.inr hmem), if_neg hw]

/-- C2 witness: the two-cell snake [(1,0), (0,0)] moving left onto its own
tail keeps going, the tail cell becoming the new head. -/
theorem c2_witness :
    stepGame (fun _ => (0, 0)) 1 Dir.left tailFollowCore =
      some (StepOut.cont { tailFollowCore with
        snake := (newHead tailFollowCore Dir.left :: tailFollowCore.snake).dropLast }) :=
  (c2_tail_follow (fun _ => (0, 0)) 1 Dir.left tailFollowCore).1 (by decide) (by decide)
    (by decide) (by decide) (by decide)

/-- C3: when the computed new head equals the food cell and no collision
occurs, a completed step grows the snake by exactly one cell, raises the score
by exactly one, and relocates the food to a cell off the post-growth snake. -/
theorem c3_growth (draws : Nat → Nat × Nat) (fuel : Nat) (d : Dir) (c : RoundCore)
    (out : StepOut)
    (hgrow : newHead c d = c.food)
    (hw : ¬ hitWallP (newHead c d))
    (hself : newHead c d ∉ c.snake)
    (hstep : stepGame draws fuel d c = some out) :
    ∃ c2, out = StepOut.cont c2 ∧ c2.snake.length = c.snake.length + 1 ∧
      c2.score = c.score + 1 ∧ c2.food ∉ c2.snake := by
  have hcol : ¬ (hitWallP (newHead c d) ∨ newHead c d ∈ c.snake) := by
    intro h
    rcases h with h | h
    · exact hw h
    · exact hself h
  unfold stepGame at hstep
  rw [if_pos hgrow, if_neg hcol, if_pos hgrow] at hstep
  cases hrf : random_food_position_k draws (newHead c d :: c.snake) 0 fuel with
  | none =>
    rw [hrf] at hstep
    cases hstep
  | some f =>
    rw [hrf] at hstep
    obtain rfl := Option.some.inj hstep
    exact ⟨_, rfl, by simp, rfl, (rfp_sound draws _ 0 fuel f hrf).2⟩

/-- C3 witness: the one-cell snake [(1,0)] stepping right onto the food at
(2,0) becomes the two-cell snake with score 1 and the food re-drawn at (9,9). -/
theorem c3_witness :
    ∃ c2, StepOut.cont grownCore = StepOut.cont c2 ∧
      c2.snake.length = growCore.snake.length + 1 ∧
      c2.score = growCore.score + 1 ∧ c2.food ∉ c2.snake :=
  c3_growth (fun _ => (9, 9)) 1 Dir.right growCore (StepOut.cont grownCore)
    (by decide) (by decide) (by decide) (by decide)

/-- C4: a new head outside the grid always ends the round with reason wall
(wall takes precedence, whatever the self test would say); a new head on a
non-tail body cell while not growing and in bounds always ends it with reason
self; in both cases the snake, score and food of the resulting round data are
exactly the ones before the step. -/
theorem c4_collision_outcomes (draws : Nat → Nat × Nat) (fuel : Nat) (d : Dir)
    (c : RoundCore) :
    (hitWallP (newHead c d) →
      stepGame draws fuel d c =
        some (StepOut.over { c with gameOverReason := Reason.wall })) ∧
    (¬ hitWallP (newHead c d) → newHead c d ∈ c.snake.dropLast → newHead c d ≠ c.food →
      stepGame draws fuel d c =
        some (StepOut.over { c with gameOverReason := Reason.self })) := by
  constructor
  · intro hw
    unfold stepGame
    rw [if_pos (Or.inl hw), if_pos hw]
  · intro hw hmem hne
    unfold stepGame
    rw [if_neg hne, if_pos (Or.inr hmem), if_neg hw]

/-- C4 witness: the snake [(0,0), (1,0)] stepping left moves to (-1, 0),
outside the grid, and the round ends with reason wall leaving the round data
otherwise unchanged. -/
theorem c4_witness :
    stepGame (fun _ => (0, 0)) 1 Dir.left wallCore =
      some (StepOut.over { wallCore with gameOverReason := Reason.wall }) :=
  (c4_collision_outcomes (fun _ => (0, 0)) 1 Dir.left wallCore).1 (by decide)

/-- C5: direction buffering.  While no move has happened (active direction
none) a candidate is accepted exactly by the first-move test — its target cell
in bounds and off the body cells snake[1:] — and a failing candidate leaves
the buffer unchanged; once movement has started a candidate is accepted unless
it is the exact opposite of the active direction, and the opposite leaves the
buffer unchanged. -/
theorem c5_direction_buffering (snake : List Cell) (nd : Option Dir) (d : Dir) :
    ((inGrid (stepTarget snake d) ∧ stepTarget snake d ∉ snake.drop 1) →
      applyDirKey snake none nd d = some d) ∧
    (¬ (inGrid (stepTarget snake d) ∧ stepTarget snake d ∉ snake.drop 1) →
      applyDirKey snake none nd d = nd) ∧
    (∀ cur : Dir, d ≠ cur.opposite → applyDirKey snake (some cur) nd d = some d) ∧
    (∀ cur : Dir, d = cur.opposite → applyDirKey snake (some cur) nd d = nd) := by
  refine ⟨?_, ?_, ?_, ?_⟩
  · intro h
    simp only [applyDirKey]
    rw [if_pos h]
  · intro h
    simp only [applyDirKey]
    rw [if_neg h]
  · intro cur h
    simp only [applyDirKey]
    rw [if_pos h]
  · intro cur h
    simp only [applyDirKey]
    rw [if_neg (fun hne => hne h)]

/-- C5 witness: with the snake moving right, the up key is buffered. -/
theorem c5_witness :
    applyDirKey [((1 : Int), (1 : Int))] (some Dir.right) none Dir.up = some Dir.up :=
  (c5_direction_buffering [((1 : Int), (1 : Int))] none Dir.up).2.2.1 Dir.right (by decide)

/-- Event handling never touches the simulation core or the active direction:
only the pending direction, pause, level, toast and overlay flags change. -/
theorem handleEvent_fields (sb : GState × Bool) (e : Ev) (sb2 : GState × Bool)
    (h : handleEvent sb e = some sb2) :
    sb2.1.core = sb.1.core ∧ sb2.1.direction = sb.1.direction := by
  cases e with
  | quit => simp [handleEvent] at h
  | restartKey =>
    obtain rfl := Option.some.inj h
    exact ⟨rfl, rfl⟩
  | levelKey n =>
    obtain rfl := Option.some.inj h
    exact ⟨rfl, rfl⟩
  | helpKey =>
    obtain rfl := Option.some.inj h
    exact ⟨rfl, rfl⟩
  | debugKey =>
    obtain rfl := Option.some.inj h
    exact ⟨rfl, rfl⟩
  | pauseKey =>
    obtain rfl := Option.some.inj h
    exact ⟨rfl, rfl⟩
  | dirKey d =>
    obtain rfl := Option.some.inj h
    exact ⟨rfl, rfl⟩

/-- A whole frame's worth of events never touches the core or the active
direction. -/
theorem handleEvents_fields (events : List Ev) :
    ∀ (sb sb2 : GState × Bool), handleEvents events sb = some sb2 →
      sb2.1.core = sb.1.core ∧ sb2.1.direction = sb.1.direction := by
  induction events with
  | nil =>
    intro sb sb2 h
    obtain rfl := Option.some.inj h
    exact ⟨rfl, rfl⟩
  | cons e es ih =>
    intro sb sb2 h
    rw [handleEvents] at h
    cases he : handleEvent sb e with
    | none =>
      rw [he] at h
      cases h
    | some sb1 =>
      rw [he] at h
      have h1 := handleEvent_fields sb e sb1 he
      have h2 := ih sb1 sb2 h
      exact ⟨h2.1.trans h1.1, h2.2.trans h1.2⟩

/-- Applying the pending direction leaves the core in place. -/
theorem applyPending_core (s : GState) : (applyPending s).core = s.core := by
  unfold applyPending
  cases s.nextDirection <;> rfl

/-- Applying the pending direction leaves the pause flag in place. -/
theorem applyPending_paused (s : GState) : (applyPending s).paused = s.paused := by
  unfold applyPending
  cases s.nextDirection <;> rfl

/-- A completed frame preserves the round invariants, whichever way it ends. -/
theorem tick_inv (draws : Nat → Nat × Nat) (fuel : Nat) (events : List Ev) (dt : Nat)
    (s s2 : GState)
    (hinv : CoreInv s.core)
    (h : tick draws fuel events dt s = some (TickOut.cont s2) ∨
         tick draws fuel events dt s = some (TickOut.gameOver s2) ∨
         tick draws fuel events dt s = some (TickOut.restartRound s2)) :
    CoreInv s2.core := by
  unfold tick at h
  cases hev : handleEvents events (s, false) with
  | none =>
    rw [hev] at h
    dsimp only at h
    rcases h with h | h | h <;> simp at h
  | some sb =>
    rw [hev] at h
    dsimp only at h
    have hfld := handleEvents_fields events (s, false) sb hev
    have hinv1 : CoreInv sb.1.core := by
      rw [hfld.1]
      exact hinv
    unfold tickAfterEvents at h
    by_cases hr : sb.2 = true
    · rw [if_pos hr] at h
      rcases h with h | h | h
      · simp at h
      · simp at h
      · simp only [Option.some.injEq, TickOut.restartRound.injEq] at h
        rw [← h]
        exact hinv1
    · rw [if_neg hr] at h
      by_cases hp : sb.1.paused = true
      · rw [if_pos hp] at h
        rcases h with h | h | h
        · simp only [Option.some.injEq, TickOut.cont.injEq] at h
          rw [← h]
          exact hinv1
        · simp at h
        · simp at h
      · rw [if_neg hp] at h
        have hinv2 : CoreInv (applyPending sb.1).core := by
          rw [applyPending_core]
          exact hinv1
        cases hd : (applyPending sb.1).direction with
        | none =>
          rw [hd] at h
          dsimp only at h
          rcases h with h | h | h
          · simp only [Option.some.injEq, TickOut.cont.injEq] at h
            rw [← h]
            exact hinv2
          · simp at h
          · simp at h
        | some d =>
          rw [hd] at h
          dsimp only at h
          cases hst : stepGame draws fuel d (decTimers dt (applyPending sb.1)).core with
          | none =>
            rw [hst] at h
            dsimp only at h
            rcases h with h | h | h <;> exact Option.noConfusion h
          | some so =>
            rw [hst] at h
            have hinv3 : CoreInv (decTimers dt (applyPending sb.1)).core := hinv2
            have hso := stepGame_inv draws fuel d _ so hinv3 hst
            cases so with
            | over c2 =>
              dsimp only at h
              rcases h with h | h | h
              · simp at h
              · simp only [Option.some.injEq, TickOut.gameOver.injEq] at h
                rw [← h]
                exact hso
              · simp at h
            | cont c2 =>
              dsimp only at h
              rcases h with h | h | h
              · simp only [Option.some.injEq, TickOut.cont.injEq] at h
                rw [← h]
                exact hso
              · simp at h
              · simp at h

/-- A fresh round satisfies the invariants: the shipped configuration's initial
snake is the concrete five-cell horizontal snake and the drawn food misses it. -/
theorem mkRound_inv (draws : Nat → Nat × Nat) (fuel : Nat) (snake0 : List Cell)
    (food0 : Cell) (bs bz : Nat)
    (hcr : create_initial_snake (START_LENGTH : Int) = some snake0)
    (hrf : random_food_position_k draws snake0 0 fuel = some food0) :
    CoreInv (mkRound snake0 food0 bs bz).core := by
  have hconc : create_initial_snake (START_LENGTH : Int) = some initialSnake := by decide
  rw [hconc] at hcr
  obtain rfl := Option.some.inj hcr
  have hf := rfp_sound draws initialSnake 0 fuel food0 hrf
  refine ⟨?_, ?_, ?_, ?_, hf.1, hf.2⟩
  · show initialSnake ≠ []
    decide
  · show initialSnake.Nodup
    decide
  · show List.Chain' adjacent initialSnake
    simp only [initialSnake, List.chain'_cons, List.chain'_singleton, and_true]
    decide
  · show ∀ x ∈ initialSnake, inGrid x
    decide

/-- C1: in every reachable state the snake's cells are pairwise distinct,
consecutive snake cells are grid-adjacent (Manhattan distance 1), and the food
cell is never on the snake. -/
theorem c1_reachable_invariants (s : GState) (h : Reach s) :
    s.core.snake.Nodup ∧ List.Chain' adjacent s.core.snake ∧
      s.core.food ∉ s.core.snake := by
  have hinv : CoreInv s.core := by
    induction h with
    | init draws fuel snake0 food0 hcr hrf =>
      exact mkRound_inv draws fuel snake0 food0 0 START_LENGTH hcr hrf
    | tickStep draws fuel events dt s1 s2 hreach hstep ih =>
      exact tick_inv draws fuel events dt s1 s2 ih hstep
    | newRound draws fuel snake0 food0 s1 hreach hcr hrf ih =>
      exact mkRound_inv draws fuel snake0 food0 _ _ hcr hrf
  exact ⟨hinv.2.1, hinv.2.2.1, hinv.2.2.2.2.2⟩

/-- C1 witness: the concrete first-round state with the food drawn at (0, 0). -/
theorem c1_witness :
    initRound.core.snake.Nodup ∧ List.Chain' adjacent initRound.core.snake ∧
      initRound.core.food ∉ initRound.core.snake :=
  c1_reachable_invariants initRound
    (Reach.init (fun _ => (0, 0)) 1 initialSnake (0, 0) (by decide) (by decide))

/-- The simulation step never lowers the session bests. -/
theorem stepGame_bests_mono (draws : Nat → Nat × Nat) (fuel : Nat) (d : Dir)
    (c : RoundCore) (out : StepOut) (hstep : stepGame draws fuel d c = some out) :
    c.bestScore ≤ out.core.bestScore ∧ c.bestSize ≤ out.core.bestSize := by
  unfold stepGame at hstep
  by_cases hcol : hitWallP (newHead c d) ∨
      newHead c d ∈ (if newHead c d = c.food then c.snake else c.snake.dropLast)
  · rw [if_pos hcol] at hstep
    obtain rfl := Option.some.inj hstep
    exact ⟨le_refl _, le_refl _⟩
  · rw [if_neg hcol] at hstep
    by_cases hgrow : newHead c d = c.food
    · rw [if_pos hgrow] at hstep
      cases hrf : random_food_position_k draws (newHead c d :: c.snake) 0 fuel with
      | none =>
        rw [hrf] at hstep
        cases hstep
      | some f =>
        rw [hrf] at hstep
        obtain rfl := Option.some.inj hstep
        exact ⟨le_max_left _ _, le_max_left _ _⟩
    · rw [if_neg hgrow] at hstep
      obtain rfl := Option.some.inj hstep
      exact ⟨le_refl _, le_refl _⟩

/-- A completed frame never lowers the session bests, whichever way it ends. -/
theorem tick_bests_mono (draws : Nat → Nat × Nat) (fuel : Nat) (events : List Ev)
    (dt : Nat) (s s2 : GState)
    (h : tick draws fuel events dt s = some (TickOut.cont s2) ∨
         tick draws fuel events dt s = some (TickOut.gameOver s2) ∨
         tick draws fuel events dt s = some (TickOut.restartRound s2)) :
    s.core.bestScore ≤ s2.core.bestScore ∧ s.core.bestSize ≤ s2.core.bestSize := by
  unfold tick at h
  cases hev : handleEvents events (s, false) with
  | none =>
    rw [hev] at h
    dsimp only at h
    rcases h with h | h | h <;> simp at h
  | some sb =>
    rw [hev] at h
    dsimp only at h
    have hfld := handleEvents_fields events (s, false) sb hev
    have hsc : sb.1.core = s.core := hfld.1
    unfold tickAfterEvents at h
    by_cases hr : sb.2 = true
    · rw [if_pos hr] at h
      rcases h with h | h | h
      · simp at h
      · simp at h
      · simp only [Option.some.injEq, TickOut.restartRound.injEq] at h
        rw [← h, hsc]
        exact ⟨le_refl _, le_refl _⟩
    · rw [if_neg hr] at h
      by_cases hp : sb.1.paused = true
      · rw [if_pos hp] at h
        rcases h with h | h | h
        · simp only [Option.some.injEq, TickOut.cont.injEq] at h
          rw [← h, hsc]
          exact ⟨le_refl _, le_refl _⟩
        · simp at h
        · simp at h
      · rw [if_neg hp] at h
        cases hd : (applyPending sb.1).direction with
        | none =>
          rw [hd] at h
          dsimp only at h
          rcases h with h | h | h
          · simp only [Option.some.injEq, TickOut.cont.injEq] at h
            rw [← h, applyPending_core, hsc]
            exact ⟨le_refl _, le_refl _⟩
          · simp at h
          · simp at h
        | some d =>
          rw [hd] at h
          dsimp only at h
          cases hst : stepGame draws fuel d (decTimers dt (applyPending sb.1)).core with
          | none =>
            rw [hst] at h
            dsimp only at h
            rcases h with h | h | h <;> exact Option.noConfusion h
          | some so =>
            rw [hst] at h
            have hmono := stepGame_bests_mono draws fuel d _ so hst
            have hbs : (decTimers dt (applyPending sb.1)).core.bestScore = s.core.bestScore := by
              show (applyPending sb.1).core.bestScore = s.core.bestScore
              rw [applyPending_core, hsc]
            have hbz : (decTimers dt (applyPending sb.1)).core.bestSize = s.core.bestSize := by
              show (applyPending sb.1).core.bestSize = s.core.bestSize
              rw [applyPending_core, hsc]
            rw [hbs, hbz] at hmono
            cases so with
            | over c2 =>
              dsimp only at h
              rcases h with h | h | h
              · simp at h
              · simp only [Option.some.injEq, TickOut.gameOver.injEq] at h
                rw [← h]
                exact hmono
              · simp at h
            | cont c2 =>
              dsimp only at h
              rcases h with h | h | h
              · simp only [Option.some.injEq, TickOut.cont.injEq] at h
                rw [← h]
                exact hmono
              · simp at h
              · simp at h

/-- Reachable states never report a best size below the configured initial
length: the session starts it at START_LENGTH, frames only raise it, and round
restarts carry it over. -/
theorem reach_bestSize_ge (s : GState) (h : Reach s) :
    START_LENGTH ≤ s.core.bestSize := by
  induction h with
  | init draws fuel snake0 food0 hcr hrf => exact le_refl _
  | tickStep draws fuel events dt s1 s2 hreach hstep ih =>
    exact le_trans ih (tick_bests_mono draws fuel events dt s1 s2 hstep).2
  | newRound draws fuel snake0 food0 s1 hreach hcr hrf ih => exact ih

/-- C10: session bests.  (1) every reachable state reports a best size of at
least the configured initial snake length (the session starts it there, not at
0); (2) a completed frame never lowers either best, so they survive pauses,
game overs and round restarts within one run; (3) a continuing step that does
not grow the snake leaves both bests untouched, and a growing step sets each
to the max of the old best and the current value; (4) a fresh round receives
the session bests unchanged. -/
theorem c10_session_bests :
    (∀ s : GState, Reach s → START_LENGTH ≤ s.core.bestSize) ∧
    (∀ (draws : Nat → Nat × Nat) (fuel : Nat) (events : List Ev) (dt : Nat)
        (s s2 : GState),
      (tick draws fuel events dt s = some (TickOut.cont s2) ∨
       tick draws fuel events dt s = some (TickOut.gameOver s2) ∨
       tick draws fuel events dt s = some (TickOut.restartRound s2)) →
      s.core.bestScore ≤ s2.core.bestScore ∧ s.core.bestSize ≤ s2.core.bestSize) ∧
    (∀ (draws : Nat → Nat × Nat) (fuel : Nat) (d : Dir) (c c2 : RoundCore),
      stepGame draws fuel d c = some (StepOut.cont c2) →
      (c2.snake.length = c.snake.length →
        c2.bestScore = c.bestScore ∧ c2.bestSize = c.bestSize) ∧
      (c2.snake.length = c.snake.length + 1 →
        c2.bestScore = max c.bestScore c2.score ∧
        c2.bestSize = max c.bestSize c2.snake.length)) ∧
    (∀ (snake0 : List Cell) (food0 : Cell) (bs bz : Nat),
      (mkRound snake0 food0 bs bz).core.bestScore = bs ∧
      (mkRound snake0 food0 bs bz).core.bestSize = bz) := by
  refine ⟨fun s h => reach_bestSize_ge s h, tick_bests_mono, ?_, fun _ _ _ _ => ⟨rfl, rfl⟩⟩
  intro draws fuel d c c2 hstep
  unfold stepGame at hstep
  by_cases hcol : hitWallP (newHead c d) ∨
      newHead c d ∈ (if newHead c d = c.food then c.snake else c.snake.dropLast)
  · rw [if_pos hcol] at hstep
    simp at hstep
  · rw [if_neg hcol] at hstep
    by_cases hgrow : newHead c d = c.food
    · rw [if_pos hgrow] at hstep
      cases hrf : random_food_position_k draws (newHead c d :: c.snake) 0 fuel with
      | none =>
        rw [hrf] at hstep
        cases hstep
      | some f =>
        rw [hrf] at hstep
        simp only [Option.some.injEq, StepOut.cont.injEq] at hstep
        rw [← hstep]
        constructor
        · intro hlen
          simp only [List.length_cons] at hlen
          omega
        · intro hlen
          exact ⟨rfl, rfl⟩
    · rw [if_neg hgrow] at hstep
      simp only [Option.some.injEq, StepOut.cont.injEq] at hstep
      rw [← hstep]
      constructor
      · intro hlen
        exact ⟨rfl, rfl⟩
      · intro hlen
        simp only [List.length_dropLast, List.length_cons, Nat.add_sub_cancel] at hlen
        omega

/-- C10 witness: the concrete first-round state reports best size 5. -/
theorem c10_witness : START_LENGTH ≤ initRound.core.bestSize :=
  c10_session_bests.1 initRound
    (Reach.init (fun _ => (0, 0)) 1 initialSnake (0, 0) (by decide) (by decide))

/-- An event other than quit, restart and pause-toggle leaves the core, the
active direction, the pause flag and the restart flag alone. -/
theorem handleEvent_paused_fields (sb : GState × Bool) (e : Ev) (sb2 : GState × Bool)
    (hq : e ≠ Ev.quit) (hr : e ≠ Ev.restartKey) (hp : e ≠ Ev.pauseKey)
    (h : handleEvent sb e = some sb2) :
    sb2.1.core = sb.1.core ∧ sb2.1.direction = sb.1.direction ∧
      sb2.1.paused = sb.1.paused ∧ sb2.2 = sb.2 := by
  cases e with
  | quit => exact absurd rfl hq
  | restartKey => exact absurd rfl hr
  | pauseKey => exact absurd rfl hp
  | levelKey n =>
    obtain rfl := Option.some.inj h
    exact ⟨rfl, rfl, rfl, rfl⟩
  | helpKey =>
    obtain rfl := Option.some.inj h
    exact ⟨rfl, rfl, rfl, rfl⟩
  | debugKey =>
    obtain rfl := Option.some.inj h
    exact ⟨rfl, rfl, rfl, rfl⟩
  | dirKey d =>
    obtain rfl := Option.some.inj h
    exact ⟨rfl, rfl, rfl, rfl⟩

/-- A frame's worth of events avoiding quit, restart and pause-toggle always
completes and leaves the core, the active direction, the pause flag and the
restart flag alone. -/
theorem handleEvents_paused :
    ∀ (events : List Ev) (sb : GState × Bool),
      (∀ e ∈ events, e ≠ Ev.quit ∧ e ≠ Ev.restartKey ∧ e ≠ Ev.pauseKey) →
      ∃ sb2, handleEvents events sb = some sb2 ∧
        sb2.1.core = sb.1.core ∧ sb2.1.direction = sb.1.direction ∧
        sb2.1.paused = sb.1.paused ∧ sb2.2 = sb.2 := by
  intro events
  induction events with
  | nil =>
    intro sb _
    exact ⟨sb, rfl, rfl, rfl, rfl, rfl⟩
  | cons e es ih =>
    intro sb hev
    obtain ⟨hq, hr, hp⟩ := hev e (by simp)
    have hsome : ∃ sb1, handleEvent sb e = some sb1 := by
      cases e with
      | quit => exact absurd rfl hq
      | restartKey => exact ⟨_, rfl⟩
      | levelKey n => exact ⟨_, rfl⟩
      | helpKey => exact ⟨_, rfl⟩
      | debugKey => exact ⟨_, rfl⟩
      | pauseKey => exact ⟨_, rfl⟩
      | dirKey d => exact ⟨_, rfl⟩
    obtain ⟨sb1, he⟩ := hsome
    have h1 := handleEvent_paused_fields sb e sb1 hq hr hp he
    obtain ⟨sb2, h2, hc, hd, hpp, hb⟩ :=
      ih sb1 (fun e2 he2 => hev e2 (List.mem_cons_of_mem e he2))
    refine ⟨sb2, ?_, hc.trans h1.1, hd.trans h1.2.1, hpp.trans h1.2.2.1,
      hb.trans h1.2.2.2⟩
    rw [handleEvents, he]
    exact h2

/-- C6 as amended: a frame received while paused, whose events avoid quit,
restart and the pause toggle, keeps the round paused with the simulation core
(snake, food, score, bests, pulse and pop timers) and the active direction
untouched — level changes, help and debug toggles are still processed but only
touch those flags.  Quit is also processed while paused, and — contrary to the
original claim — so are restart requests and directional inputs, which is the
counterexample's content. -/
theorem c6_paused_frame (draws : Nat → Nat × Nat) (fuel : Nat) (events : List Ev)
    (dt : Nat) (s : GState)
    (hp : s.paused = true)
    (hev : ∀ e ∈ events, e ≠ Ev.quit ∧ e ≠ Ev.restartKey ∧ e ≠ Ev.pauseKey) :
    ∃ s2, tick draws fuel events dt s = some (TickOut.cont s2) ∧
      s2.core = s.core ∧ s2.direction = s.direction ∧ s2.paused = true := by
  obtain ⟨sb2, h2, hc, hd, hpp, hb⟩ := handleEvents_paused events (s, false) hev
  refine ⟨sb2.1, ?_, hc, hd, by rw [hpp]; exact hp⟩
  unfold tick
  rw [h2]
  dsimp only
  unfold tickAfterEvents
  rw [if_neg (by rw [hb]; simp), if_pos (by rw [hpp]; exact hp)]

/-- C6 counterexample: in a concrete paused mid-round state the restart key is
processed — the frame tears the round down for a restart — and an arrow key is
processed — the buffered direction changes; so restart requests and
directional inputs received while paused do have an effect. -/
theorem c6_counterexample :
    tick (fun _ => (0, 0)) 1 [Ev.restartKey] 0 pausedState =
      some (TickOut.restartRound pausedState) ∧
    tick (fun _ => (0, 0)) 1 [Ev.dirKey Dir.up] 0 pausedState =
      some (TickOut.cont { pausedState with nextDirection := some Dir.up }) ∧
    ({ pausedState with nextDirection := some Dir.up } : GState) ≠ pausedState := by
  exact ⟨by decide, by decide, by decide⟩

/-- C6 witness: a help-key frame on the concrete paused state stays paused with
the core and direction untouched. -/
theorem c6_witness :
    ∃ s2, tick (fun _ => (0, 0)) 1 [Ev.helpKey] 0 pausedState =
      some (TickOut.cont s2) ∧ s2.core = pausedState.core ∧
      s2.direction = pausedState.direction ∧ s2.paused = true :=
  c6_paused_frame (fun _ => (0, 0)) 1 [Ev.helpKey] 0 pausedState rfl (by decide)

/-- C7 counterexample: create_initial_snake 5 on the 30-wide grid puts the
tail at x = (30 - 5) / 2 = 12 and the head at 12 + 5 - 1 = 16, so the snake is
[(16,10) .. (12,10)], not the [(17,10) .. (13,10)] the scenario claims. -/
theorem c7_counterexample :
    create_initial_snake (START_LENGTH : Int) = some initialSnake ∧
    initialSnake ≠ [(17, 10), (16, 10), (15, 10), (14, 10), (13, 10)] := by
  exact ⟨by decide, by decide⟩

/-- C7 as amended: with the snake the code actually builds (head (16, 10)) and
the food parked at (0, 0), away from the path, stepping right 13 times leaves
the head at (29, 10) with the snake [(29,10) .. (25,10)], and the 14th step
computes head (30, 10), out of bounds, ending the round with reason wall and
the snake unchanged. -/
theorem c7_wall_scenario :
    iterateStep (fun _ => (0, 0)) 1 Dir.right 13 scenarioCore =
      some (StepOut.cont { scenarioCore with
        snake := [(29, 10), (28, 10), (27, 10), (26, 10), (25, 10)] }) ∧
    iterateStep (fun _ => (0, 0)) 1 Dir.right 14 scenarioCore =
      some (StepOut.over { scenarioCore with
        snake := [(29, 10), (28, 10), (27, 10), (26, 10), (25, 10)],
        gameOverReason := Reason.wall }) := by
  exact ⟨by decide, by decide⟩

/-- C8 as amended: the rejection-sampling food placement has no full-grid error
path.  On the snake occupying all 600 grid cells it never returns — for every
draw stream, every starting draw index and every retry budget — so a fully
occupied grid means an unbounded retry, not a detected error or forced round
end; whenever the loop does return, the returned cell is in bounds and not
occupied by the snake. -/
theorem c8_food_placement :
    (∀ (draws : Nat → Nat × Nat) (k fuel : Nat),
      random_food_position_k draws fullSnake k fuel = none) ∧
    (∀ (draws : Nat → Nat × Nat) (snake : List Cell) (k fuel : Nat) (pos : Cell),
      random_food_position_k draws snake k fuel = some pos →
      inGrid pos ∧ pos ∉ snake) :=
  ⟨rfp_full_none, fun draws snake k fuel pos h => rfp_sound draws snake k fuel pos h⟩

/-- C8 counterexample: even 1000 retries against the fully occupied grid
return nothing — the loop retries unboundedly instead of failing over to a
round end. -/
theorem c8_counterexample :
    random_food_position_k (fun _ => (0, 0)) fullSnake 0 1000 = none :=
  rfp_full_none (fun _ => (0, 0)) 0 1000

/-- C8 witness: a returned draw — here (5, 5) against the empty snake — is in
bounds and unoccupied. -/
theorem c8_witness :
    inGrid ((5 : Int), (5 : Int)) ∧ ((5 : Int), (5 : Int)) ∉ ([] : List Cell) :=
  c8_food_placement.2 (fun _ => (5, 5)) [] 0 1 ((5 : Int), (5 : Int)) (by decide)

/-- C9: initial placement fails exactly for lengths below 1 or above the grid
width; otherwise it returns the horizontal snake at y = height / 2, head first
at x = (W - L) / 2 + L - 1, with cell i sitting i cells left of the head and
the tail at x = (W - L) / 2. -/
theorem c9_initial_placement (L : Int) :
    (create_initial_snake L = none ↔ (L < 1 ∨ (GRID_WIDTH : Int) < L)) ∧
    (∀ sn, create_initial_snake L = some sn →
      sn.length = L.toNat ∧
      sn.head? = some (((GRID_WIDTH : Int) - L) / 2 + L - 1, (GRID_HEIGHT : Int) / 2) ∧
      sn.getLast? = some (((GRID_WIDTH : Int) - L) / 2, (GRID_HEIGHT : Int) / 2) ∧
      (∀ i : Fin sn.length, sn.get i =
        (((GRID_WIDTH : Int) - L) / 2 + L - 1 - ((i : Nat) : Int),
         (GRID_HEIGHT : Int) / 2))) := by
  constructor
  · by_cases hL : L < 1 ∨ (GRID_WIDTH : Int) < L
    · rw [create_initial_snake, if_pos hL]
      simp [hL]
    · rw [create_initial_snake, if_neg hL]
      simp [hL]
  · intro sn hsn
    by_cases hL : L < 1 ∨ (GRID_WIDTH : Int) < L
    · rw [create_initial_snake, if_pos hL] at hsn
      cases hsn
    · rw [create_initial_snake, if_neg hL] at hsn
      obtain rfl := Option.some.inj hsn
      push_neg at hL
      obtain ⟨hL1, hL2⟩ := hL
      have h0 : 0 < L.toNat := by omega
      refine ⟨by simp, ?_, ?_, ?_⟩
      · obtain ⟨m, hm⟩ : ∃ m, L.toNat = m + 1 := ⟨L.toNat - 1, by omega⟩
        rw [hm, List.range_succ_eq_map]
        simp
      · rw [List.getLast?_eq_getElem?]
        simp only [List.length_map, List.length_range]
        rw [List.getElem?_map, List.getElem?_range (by omega)]
        have hc : ((L.toNat - 1 : Nat) : Int) = L - 1 := by omega
        simp only [Option.map_some', Int.ofNat_eq_natCast, hc]
        have harith : ((GRID_WIDTH : Int) - L) / 2 + L - 1 - (L - 1) =
            ((GRID_WIDTH : Int) - L) / 2 := by ring
        rw [harith]
      · intro i
        have hi : (i : Nat) < L.toNat := by
          have := i.isLt
          simpa using this
        rw [List.get_eq_getElem]
        simp only [List.getElem_map, List.getElem_range, Int.ofNat_eq_natCast]

/-- C9 witness: at the shipped length 5 the placement succeeds and, for
instance, its cell 2 sits two cells left of the head at y = 10. -/
theorem c9_witness :
    initialSnake.get ⟨2, by decide⟩ =
      (((GRID_WIDTH : Int) - 5) / 2 + 5 - 1 - ((2 : Nat) : Int),
       (GRID_HEIGHT : Int) / 2) :=
  ((c9_initial_placement 5).2 initialSnake (by decide)).2.2.2 ⟨2, by decide⟩
